import Mathlib

/-!
Verification development for the `nomad-sync-job-dispatch` tool
(`src/nomad_sync_job_dispatch/_cli.py`).

The development shallowly embeds the pieces of `_cli.py` that the
orchestration claims are about:

* byte strings are `List Nat` (one `Nat` per octet);
* `bytes.splitlines(keepends=True)` is `splitlines` (for byte strings
  Python splits only at `\n`, `\r` and `\r\n`);
* the per-(task, stream-kind) log streaming worker `streaming_func`
  (lines 239-296) is `streamLoop`/`streamRun`, driven by a schedule
  `resp : Nat → PollResp` giving the result of the n-th
  `stream_logs.stream` call (chunks are modelled after the
  `json.loads`/`b64decode` step: the decoded data plus the
  server-reported next offset) and `stopW : Nat → Bool` giving the
  result of the n-th `stop_streaming.wait` call;
* the allocation wait `wait_for_alloc` (lines 192-210) is
  `wait_for_alloc`, with an explicit integer clock: `qdur k` is the
  time consumed by the k-th `get_allocations` query and sleeps advance
  the clock by the slept amount;
* the orchestration body of `root` (lines 143-333) is `runRoot`,
  driven by a `World` of scheduler responses, and records the ordered
  trace of orchestrator events (dispatch call, thread starts, status
  polls, stop broadcast, thread joins, deregister call);
* `main`'s exception handling (lines 18-26) is `exitCode`.

All loops take explicit fuel and return `none` when it runs out.
-/

set_option autoImplicit false

namespace NSJD

/-- A byte, as a natural number (one octet of a Python `bytes` value). -/
abbrev Byte := Nat

/-! ## `bytes.splitlines(keepends=True)`

For `bytes`, Python splits at the ASCII line boundaries `\n` (10),
`\r` (13) and `\r\n`, keeping the terminators. The final element has no
terminator when the input does not end in one. -/

/-- Helper for `splitlines`: `acc` is the current (reversed) unfinished line. -/
def splitlinesAux : List Byte → List Byte → List (List Byte)
  | [], acc => if acc.isEmpty then [] else [acc.reverse]
  | 13 :: 10 :: rest, acc => (acc.reverse ++ [13, 10]) :: splitlinesAux rest []
  | 13 :: rest, acc => (acc.reverse ++ [13]) :: splitlinesAux rest []
  | 10 :: rest, acc => (acc.reverse ++ [10]) :: splitlinesAux rest []
  | b :: rest, acc => splitlinesAux rest (b :: acc)

/-- Python `bs.splitlines(keepends=True)` for a byte string. -/
def splitlines (bs : List Byte) : List (List Byte) :=
  splitlinesAux bs []

/-! ## LogStreamer (`streaming_func`, lines 239-296) -/

/-- Result of one `nomad_api.client.stream_logs.stream` call, as seen by
`streaming_func`: a transport failure (`BaseNomadException`), a falsy
(empty) response, or a response whose parsed JSON carries the
base64-decoded `Data` bytes and the server-reported next `Offset`. -/
inductive PollResp where
  | err
  | empty
  | chunk (data : List Byte) (nextOffset : Nat)
deriving DecidableEq

/-- The per-streamer configuration fixed before the loop starts:
`linePfx` is the encoded `line_prefix` (lines 246-249) and
`lineBuffering` is `line_buffering = len(tasks_to_monitor) > 1`
(line 235). -/
structure StreamCfg where
  linePfx : List Byte
  lineBuffering : Bool

/-- The test `if line_prefix or line_buffering:` (line 271). -/
def StreamCfg.lineMode (c : StreamCfg) : Bool :=
  !c.linePfx.isEmpty || c.lineBuffering

/-- The mutable state of `streaming_func`, plus instrumentation counters:
`polls` counts `stream` calls made so far, `drainPolls` counts the calls
made while `stop_on_empty_response` was already set, `waits` counts
`stop_streaming.wait` calls. `out` is everything written to the
destination file so far. -/
structure StreamSt where
  offset : Nat
  tail : List Byte
  out : List Byte
  stopOnEmpty : Bool
  polls : Nat
  drainPolls : Nat
  waits : Nat
deriving DecidableEq

/-- Initial state of a streamer (`offset = 0`, `tail = b""`,
`stop_on_empty_response = False`). -/
def initStreamSt : StreamSt :=
  ⟨0, [], [], false, 0, 0, 0⟩

/-- The `for line in (tail + data).splitlines(keepends=True)` loop
(lines 272-277): every line ending in `\n` is written as
`line_prefix ++ line`; the `else` branch assigns `tail = line`.
Returns the written bytes and the final value of `tail`
(unchanged when no assignment ran — exactly as in the source). -/
def emitLines (pfx : List Byte) : List (List Byte) → List Byte → List Byte × List Byte
  | [], tail => ([], tail)
  | l :: ls, tail =>
    if l.getLast? = some 10 then
      let r := emitLines pfx ls tail
      (pfx ++ l ++ r.1, r.2)
    else
      emitLines pfx ls l

/-- Handling of a truthy response (lines 267-282): in line mode, split
`tail + data` and emit complete lines; otherwise forward the raw data.
Finally the offset advances to the server-reported next offset. -/
def processChunk (cfg : StreamCfg) (st : StreamSt) (data : List Byte) (nextOff : Nat) :
    StreamSt :=
  if cfg.lineMode then
    let r := emitLines cfg.linePfx (splitlines (st.tail ++ data)) st.tail
    { st with out := st.out ++ r.1, tail := r.2, offset := nextOff }
  else
    { st with out := st.out ++ data, offset := nextOff }

/-- Instrumentation: record one `stream` call. -/
def notePoll (st : StreamSt) : StreamSt :=
  { st with
    polls := st.polls + 1
    drainPolls := st.drainPolls + (if st.stopOnEmpty then 1 else 0) }

/-- One `stop_streaming.wait(log_poll_interval)` call (lines 287-289);
only reached when `stop_on_empty_response` is false. A true result sets
`stop_on_empty_response`. -/
def noteWait (stopW : Nat → Bool) (st : StreamSt) : StreamSt :=
  { st with stopOnEmpty := stopW st.waits, waits := st.waits + 1 }

/-- How the `while True` loop of `streaming_func` was left. -/
inductive ExitKind where
  | transportError
  | emptyDrain
deriving DecidableEq

/-- Result of running the loop: final state plus how it exited
(`none` when the fuel ran out). -/
structure LoopRes where
  st : StreamSt
  exited : Option ExitKind
deriving DecidableEq

/-- The `while True` loop of `streaming_func` (lines 253-289).
`resp n` is the result of the n-th `stream` call, `stopW n` the result
of the n-th `stop_streaming.wait` call. -/
def streamLoop (cfg : StreamCfg) (resp : Nat → PollResp) (stopW : Nat → Bool) :
    Nat → StreamSt → LoopRes
  | 0, st => ⟨st, none⟩
  | fuel + 1, st =>
    match resp st.polls with
    | .err => ⟨notePoll st, some .transportError⟩
    | .empty =>
      let st1 := notePoll st
      if st1.stopOnEmpty then ⟨st1, some .emptyDrain⟩
      else streamLoop cfg resp stopW fuel (noteWait stopW st1)
    | .chunk d off =>
      let st1 := processChunk cfg (notePoll st) d off
      if st1.stopOnEmpty then streamLoop cfg resp stopW fuel st1
      else streamLoop cfg resp stopW fuel (noteWait stopW st1)

/-- Observable outcome of one whole `streaming_func` run. `loopOut` is
what the loop wrote, `total` additionally includes the final tail flush
(lines 291-296): when the loop exits with a non-empty tail, the source
writes `line_prefix`, the tail, and a forced `\n`. -/
structure StreamFinal where
  loopOut : List Byte
  tail : List Byte
  total : List Byte
  exited : ExitKind
  polls : Nat
  drainPolls : Nat
  waits : Nat
deriving DecidableEq

/-- One whole `streaming_func` run from the initial state: the loop
followed by the final tail flush, which runs on both exit paths. -/
def streamRun (cfg : StreamCfg) (resp : Nat → PollResp) (stopW : Nat → Bool)
    (fuel : Nat) : Option StreamFinal :=
  match streamLoop cfg resp stopW fuel initStreamSt with
  | ⟨_, none⟩ => none
  | ⟨st, some e⟩ =>
    some ⟨st.out, st.tail,
      st.out ++ (if st.tail = [] then [] else cfg.linePfx ++ st.tail ++ [10]),
      e, st.polls, st.drainPolls, st.waits⟩

/-! ## AllocationWaiter (`wait_for_alloc`, lines 192-210)

Time is an integer clock (e.g. milliseconds). The deadline is absolute;
`qdur k` is the time taken by the k-th `evaluation.get_allocations`
query, and each sleep advances the clock by the slept amount. The
returned trace records, for every executed sleep, the loop-head time at
which `remaining` was computed together with the slept amount
`min remaining step`. -/

/-- An allocation as `wait_for_alloc` sees it: its `ID` and the keys of
its `TaskStates` mapping. A missing or empty `TaskStates` (both falsy
in `i.get("TaskStates")`) is the empty list. -/
structure Alloc where
  id : String
  taskStates : List String
deriving DecidableEq

/-- Result of one `evaluation.get_allocations` call: a
`BaseNomadException` (whose `nomad_resp.text` is `msg`) or the returned
list. -/
inductive AllocQuery where
  | err (msg : String)
  | ok (allocs : List Alloc)
deriving DecidableEq

/-- The stop condition of the polling loop (lines 204-207):
`if allocations: if all(i.get("TaskStates") for i in allocations):`. -/
def allocsReady (l : List Alloc) : Bool :=
  !l.isEmpty && l.all fun a => !a.taskStates.isEmpty

/-- The two failures `wait_for_alloc` can raise. -/
inductive WaitErr where
  | timeout
  | schedErr (msg : String)
deriving DecidableEq

/-- The `while True` loop of `wait_for_alloc` (lines 193-210), with
fuel. Arguments after the schedules: absolute `deadline`, poll
interval `step`, then fuel, the current clock `now`, and the index `k`
of the next query. Returns `none` when fuel runs out, otherwise the
result together with the sleep trace. -/
def wait_for_alloc (query : Nat → AllocQuery) (qdur : Nat → Int)
    (deadline step : Int) :
    Nat → Int → Nat → Option (Except WaitErr (List Alloc) × List (Int × Int))
  | 0, _, _ => none
  | fuel + 1, now, k =>
    let remaining := deadline - now
    if remaining < 0 then some (.error .timeout, [])
    else
      match query k with
      | .err m => some (.error (.schedErr m), [])
      | .ok allocs =>
        if allocsReady allocs then some (.ok allocs, [])
        else
          let slp := min remaining step
          match wait_for_alloc query qdur deadline step fuel (now + qdur k + slp) (k + 1) with
          | none => none
          | some (res, tr) => some (res, (now, slp) :: tr)

/-! ## Orchestration (`root`, lines 143-333, and `main`, lines 18-26) -/

/-- The user-facing errors `root` raises as `click` exceptions. -/
inductive RootErr where
  /-- the `click.BadParameter` for the oversized payload (line 162). -/
  | validation (msg : String)
  /-- dispatch rejected by the scheduler (line 184). -/
  | dispatchFailed (msg : String)
  /-- allocation wait deadline elapsed (line 197). -/
  | allocTimeout
  /-- a scheduler query failed (lines 202 and 313). -/
  | schedErr (msg : String)
  /-- the loop returned other than exactly one allocation (line 214). -/
  | unexpectedAllocCount (n : Nat)
  /-- a `--task` value absent from the allocation task states (line 225). -/
  | taskNotFound (t : String)
deriving DecidableEq

/-- After the loop, `root` checks `len(allocations) != 1`
(lines 213-214) and then uses `allocations[0]`. -/
def checkSingle (allocs : List Alloc) : Except RootErr Alloc :=
  if allocs.length ≠ 1 then .error (.unexpectedAllocCount allocs.length)
  else
    match allocs with
    | a :: _ => .ok a
    | [] => .error (.unexpectedAllocCount 0)

/-- The call of `wait_for_alloc` as made by `root` (clock starts at 0, so the
absolute deadline is the `--alloc-timeout` value), followed by the
single-allocation check. -/
def waitAndCheck (query : Nat → AllocQuery) (qdur : Nat → Int)
    (deadline step : Int) (fuel : Nat) : Option (Except RootErr Alloc) :=
  match wait_for_alloc query qdur deadline step fuel 0 0 with
  | none => none
  | some (.error .timeout, _) => some (.error .allocTimeout)
  | some (.error (.schedErr m), _) =>
    some (.error (.schedErr ("failed getting evaluation allocations: " ++ m)))
  | some (.ok allocs, _) => some (checkSingle allocs)

/-- Insert a string into a sorted list (helper for `sorted`). -/
def orderedInsertStr (a : String) : List String → List String
  | [] => [a]
  | b :: l => if a ≤ b then a :: b :: l else b :: orderedInsertStr a l

/-- Python `sorted` on a list of strings (a stable sort; used for
`sorted(allocation["TaskStates"])`, line 228). -/
def sortStrings : List String → List String
  | [] => []
  | a :: l => orderedInsertStr a (sortStrings l)

/-- The `--task` validation loop (lines 222-226): returns the monitored
tasks, or the first `--task` value missing from the task-state keys. -/
def checkTasks (keys : List String) : List String → Except String (List String)
  | [] => .ok []
  | t :: rest =>
    if keys.contains t then
      match checkTasks keys rest with
      | .error e => .error e
      | .ok l => .ok (t :: l)
    else .error t

/-- Resolution of `tasks_to_monitor` (lines 221-228): the validated
`--task` values if any were given, otherwise all task-state keys
sorted. -/
def resolveTasks (taskOpt : List String) (a : Alloc) : Except String (List String) :=
  if taskOpt.isEmpty then .ok (sortStrings a.taskStates)
  else checkTasks a.taskStates taskOpt

/-- Computation of `max_task_name_len` (lines 230-233): the longest monitored task
name when `--prefix-task` was given, else 0. (Python `max` over a
nonempty list of lengths equals this fold.) -/
def maxTaskNameLen (pfxTask : Bool) (tasks : List String) : Nat :=
  if pfxTask then (tasks.map String.length).foldl max 0 else 0

/-- Python `f"{task:{width}}"` for a string: strings are left-aligned
by default, so the name is padded **on the right** with spaces up to
`width`. -/
def pyFormatPad (s : List Char) (width : Nat) : List Char :=
  if width ≤ s.length then s else s ++ List.replicate (width - s.length) ' '

/-- The streamer's `line_prefix` (lines 246-249): when `max_task_name_len` is nonzero,
`f"{task:{max_task_name_len}}:"`, else the empty byte string. -/
def linePfxOf (task : String) (maxLen : Nat) : List Char :=
  if maxLen ≠ 0 then pyFormatPad task.data maxLen ++ [':'] else []

/-- The dispatch response fields used by `root` (lines 188-189). -/
structure DispatchResp where
  dispatchedJobID : String
  evalID : String
deriving DecidableEq

/-- Orchestrator events, in program order of the main thread. -/
inductive Ev where
  /-- the `dispatch_job` network call (line 182). -/
  | dispatchCall
  /-- the `thread.start()` for worker `i` (line 303). -/
  | threadStart (i : Nat)
  /-- the k-th `allocation.get_allocation` status poll (line 311). -/
  | statusCall (k : Nat)
  /-- the completion loop observed a terminal client status (line 316). -/
  | statusDetermined
  /-- a fatal exception was raised inside the `try` body. -/
  | failureDetermined
  /-- the `stop_streaming.set()` broadcast (line 322). -/
  | stopSet
  /-- the `thread.join()` for worker `i` (line 325). -/
  | threadJoin (i : Nat)
  /-- the `deregister_job` call in the `finally` block (line 331). -/
  | deregisterCall
deriving DecidableEq

/-- The environment of one `root` run: everything the scheduler and the
process's surroundings decide. `statusQuery k` is the k-th completion
poll; `interruptAt = some k` delivers a `KeyboardInterrupt` during the
sleep that follows the (non-terminal) k-th completion poll. Options
not touched by the verified claims (connection flags, verbosity,
`--prefix-task`, poll intervals of the log streamers) are omitted. -/
structure World where
  inputPresent : Bool
  payloadLen : Nat
  dispatchResp : Except String DispatchResp
  allocQuery : Nat → AllocQuery
  allocQdur : Nat → Int
  allocTimeout : Int
  allocStep : Int
  taskOpt : List String
  statusQuery : Nat → Except String String
  interruptAt : Option Nat

/-- How one `root` invocation ended, as observed by `main`. -/
inductive Outcome where
  /-- the completion loop returned this terminal client status
  (then: `sys.exit(1)` unless it is `"complete"`). -/
  | completed (status : String)
  /-- a `click.ClickException` propagated out of `root`. -/
  | clickError (e : RootErr)
  /-- a `KeyboardInterrupt` was delivered (surfaced by `click` as
  `Abort`). -/
  | interrupted
deriving DecidableEq

/-- Length `len(payload_b64)` (line 160): the base64 encoding of `n` bytes has
`4 * ceil(n / 3)` bytes. -/
def b64EncLen (n : Nat) : Nat := 4 * ((n + 2) / 3)

/-- Membership in `["complete", "failed", "lost"]` (line 316). -/
def isTerminalStatus (s : String) : Bool :=
  s == "complete" || s == "failed" || s == "lost"

/-- How the completion loop ended. -/
inductive CompletionOut where
  | failedPoll (msg : String)
  | terminal (s : String)
  | interrupted
deriving DecidableEq

/-- The completion polling loop (lines 307-319), with fuel. Returns
the number of status polls made and how the loop ended. -/
def completionLoop (statusQ : Nat → Except String String) (intrAt : Option Nat) :
    Nat → Nat → Option (Nat × CompletionOut)
  | 0, _ => none
  | fuel + 1, k =>
    match statusQ k with
    | .error m => some (k + 1, .failedPoll m)
    | .ok s =>
      if isTerminalStatus s then some (k + 1, .terminal s)
      else if intrAt = some k then some (k + 1, .interrupted)
      else completionLoop statusQ intrAt fuel (k + 1)

/-- The `thread.start()` events for the `2 * len(tasks_to_monitor)` workers
(lines 298-303). -/
def startEvs (n : Nat) : List Ev := (List.range n).map Ev.threadStart

/-- The `statusCall` events for `n` completion polls. -/
def statusEvs (n : Nat) : List Ev := (List.range n).map Ev.statusCall

/-- The `thread.join()` events (lines 324-325). -/
def joinEvs (n : Nat) : List Ev := (List.range n).map Ev.threadJoin

/-- The body of the `try` block (lines 192-328): allocation wait and
check, task resolution, thread start, completion loop, and — only when
a terminal status was determined — stop broadcast and joins. Returns
the outcome and the event trace of the body. -/
def runBody (w : World) (fuel : Nat) : Option (Outcome × List Ev) :=
  match waitAndCheck w.allocQuery w.allocQdur w.allocTimeout w.allocStep fuel with
  | none => none
  | some (.error e) => some (.clickError e, [.failureDetermined])
  | some (.ok alloc) =>
    match resolveTasks w.taskOpt alloc with
    | .error t => some (.clickError (.taskNotFound t), [.failureDetermined])
    | .ok tasks =>
      let n := 2 * tasks.length
      match completionLoop w.statusQuery w.interruptAt fuel 0 with
      | none => none
      | some (polls, .failedPoll m) =>
        some (.clickError (.schedErr ("failed getting allocation status: " ++ m)),
          startEvs n ++ statusEvs polls ++ [.failureDetermined])
      | some (polls, .interrupted) =>
        some (.interrupted, startEvs n ++ statusEvs polls ++ [.failureDetermined])
      | some (polls, .terminal s) =>
        some (.completed s,
          startEvs n ++ statusEvs polls ++ [.statusDetermined, .stopSet] ++ joinEvs n)

/-- The observable result of one `root` run: the outcome, the ordered
event trace of the main thread, and how many times `deregister_job`
was invoked. -/
structure RootResult where
  outcome : Outcome
  trace : List Ev
  deregs : Nat
deriving DecidableEq

/-- One whole `root` run (lines 143-333): payload validation, dispatch,
then the `try` body wrapped by the `finally` that always invokes
`deregister_job` once dispatch has succeeded (a deregistration failure
is only logged, so the invocation itself always counts). -/
def runRoot (w : World) (fuel : Nat) : Option RootResult :=
  if w.inputPresent && decide (15 * 1024 < b64EncLen w.payloadLen) then
    some ⟨.clickError (.validation "encoded payload size exceeds permitted 15KB."), [], 0⟩
  else
    match w.dispatchResp with
    | .error m => some ⟨.clickError (.dispatchFailed ("failed to dispatch job: " ++ m)),
        [.dispatchCall], 0⟩
    | .ok _ =>
      match runBody w fuel with
      | none => none
      | some (outc, tr) => some ⟨outc, .dispatchCall :: tr ++ [.deregisterCall], 1⟩

/-- The process exit code that `main` (lines 18-26) produces for each
outcome:
* `root` returns normally only when the status is `"complete"` → 0;
* any other terminal status: `sys.exit(1)` (line 328) → 1;
* a `ClickException` is caught and `sys.exit()` is called **with no
  argument** (line 23), which exits with status 0;
* a `KeyboardInterrupt` is turned into `click.exceptions.Abort` by
  `click`, caught at line 24, again `sys.exit()` with no argument → 0. -/
def exitCode : Outcome → Nat
  | .completed s => if s = "complete" then 0 else 1
  | .clickError _ => 0
  | .interrupted => 0

/-- The payload validation passes (line 157-164). -/
def payloadOk (w : World) : Bool :=
  !(w.inputPresent && decide (15 * 1024 < b64EncLen w.payloadLen))

/-- The dispatch call succeeds: validation passed and the scheduler
accepted the dispatch. -/
def dispatchSucceeds (w : World) : Bool :=
  payloadOk w &&
    (match w.dispatchResp with
     | .ok _ => true
     | .error _ => false)

/-- The trace before the first `deregisterCall` event. -/
def beforeFirstDereg (tr : List Ev) : List Ev :=
  tr.takeWhile fun e => decide (e ≠ Ev.deregisterCall)

/-- The cleanup-ordering property of claim C4: every started worker is
joined before cleanup, and the terminal status (or the failure) is
determined before cleanup. -/
def cleanupOrdering (tr : List Ev) : Prop :=
  (∀ i, Ev.threadStart i ∈ tr → Ev.threadJoin i ∈ beforeFirstDereg tr)
  ∧ (Ev.statusDetermined ∈ beforeFirstDereg tr ∨ Ev.failureDetermined ∈ beforeFirstDereg tr)

/-- The prefix as claim C9 words it: the task name left-padded
(right-aligned) with spaces to the longest monitored task-name length.
Modelled from the spec for comparison with the source's `linePfxOf`. -/
def specLeftPadPfx (task : String) (maxLen : Nat) : List Char :=
  List.replicate (maxLen - task.length) ' ' ++ task.data

/-! ## Concrete scenarios used by witnesses and counterexamples -/

/-- Line-buffered configuration without a task-name prefix
(`len(tasks_to_monitor) > 1`, `--no-prefix-task`). -/
def cfgPlain : StreamCfg := ⟨[], true⟩

/-- Configuration with prefix `"t:"` (so line mode is on). -/
def cfgPfx : StreamCfg := ⟨[116, 58], false⟩

/-- Chunks `b"a"` then `b"b\n"` at offsets 1 and 2, then nothing. -/
def respC2 : Nat → PollResp
  | 0 => .chunk [97] 1
  | 1 => .chunk [98, 10] 2
  | _ => .empty

/-- The stop signal fires at the second inter-poll wait. -/
def stopWC2 : Nat → Bool
  | 0 => false
  | _ => true

/-- Empty first response, then chunks `b"x"`, `b"y"`, then nothing. -/
def respC8 : Nat → PollResp
  | 0 => .empty
  | 1 => .chunk [120] 1
  | 2 => .chunk [121] 2
  | _ => .empty

/-- The stop signal is already set at every wait. -/
def stopWTrue : Nat → Bool := fun _ => true

/-- Chunk `b"a"` (no newline) and then a transport failure. -/
def respC10 : Nat → PollResp
  | 0 => .chunk [97] 1
  | _ => .err

/-- The stop signal never fires. -/
def stopWFalse : Nat → Bool := fun _ => false

/-- A single allocation whose task states contain one task. -/
def allocA : Alloc := ⟨"alloc-1", ["task1"]⟩

/-- A run whose dispatch and allocation wait succeed and whose first
completion-status poll fails with a scheduler error. -/
def wBad : World :=
  { inputPresent := false
    payloadLen := 0
    dispatchResp := .ok ⟨"job-1/dispatch-1", "eval-1"⟩
    allocQuery := fun _ => .ok [allocA]
    allocQdur := fun _ => 1
    allocTimeout := 15
    allocStep := 2
    taskOpt := []
    statusQuery := fun _ => .error "connection refused"
    interruptAt := none }

/-- A run that completes normally with status `complete` after one
non-terminal poll. -/
def wGood : World :=
  { wBad with statusQuery := fun k => if k = 0 then .ok "running" else .ok "complete" }

/-- A run whose dispatch is rejected by the scheduler. -/
def wDispFail : World := { wBad with dispatchResp := .error "job not parameterized" }

/-- A run with a payload of 11521 bytes, whose base64 encoding has
15364 > 15360 bytes. -/
def wBigPayload : World := { wBad with inputPresent := true, payloadLen := 11521 }

/-! ## Claim C1 — exit codes (code bug)

The claim: exit code 0 iff the terminal status is `complete`; exit
code 1 on any other terminal status and on any orchestration failure
reported as a user-facing error.

The terminal-status part holds (`sys.exit(1)` at line 328). But `main`
catches every `click.ClickException` (and `Abort`) and then calls
`sys.exit()` **with no argument** (lines 23 and 26), and
`sys.exit(None)` exits the process with status 0. So every
orchestration failure — dispatch rejection, allocation timeout,
unexpected allocation count, task not found, scheduler error — exits
with code 0, not 1. -/

/-- C1: on a run whose dispatch is rejected by the scheduler, the
outcome is a user-facing `ClickException`, yet the process exit code is
0; terminal statuses, by contrast, map to 0 / 1 as the claim states. -/
theorem c1_click_error_exits_zero :
    (∃ res, runRoot wDispFail 5 = some res ∧
      res.outcome = .clickError (.dispatchFailed "failed to dispatch job: job not parameterized") ∧
      exitCode res.outcome = 0)
    ∧ exitCode (.completed "complete") = 0
    ∧ exitCode (.completed "failed") = 1 :=
  ⟨⟨_, rfl, rfl, rfl⟩, by decide, by decide⟩

/-! ## Claim C2 — emitted bytes = concatenation of chunks (code bug)

In line mode the source never resets `tail` after its bytes were
consumed into a completed line (`tail = line` only runs when the last
split line lacks a terminator, lines 272-277). With chunks `b"a"` then
`b"b\n"` the loop emits `b"ab\n"` but `tail` remains `b"a"`, and the
final flush (lines 291-296) re-emits the stale `b"a"` with a forced
newline: total output `b"ab\na\n"` instead of `b"ab\n"`. -/

/-- C2: the byte sequence emitted for chunks `b"a"`, `b"b\n"` is
`b"ab\na\n"` — not the concatenation `b"ab\n"` of the chunk data, with
or without a forced final newline; the tail buffer still holds the
stale `b"a"` although no incomplete fragment remained. -/
theorem c2_stale_tail_reemitted :
    ∃ f, streamRun cfgPlain respC2 stopWC2 10 = some f ∧
      f.total = [97, 98, 10, 97, 10] ∧ f.tail = [97] ∧
      f.total ≠ [97] ++ [98, 10] ∧
      f.total ≠ ([97] ++ [98, 10]) ++ [10] :=
  ⟨_, rfl, rfl, rfl, by decide, by decide⟩

/-! ## Claim C4 — cleanup ordering (corrected)

When the completion-status poll raises (line 313), control leaves the
`try` body before `stop_streaming.set()` (line 322) and the joins
(lines 324-325) ever run: the `finally` deregisters while the started
streamer workers are neither stopped nor joined. The claimed ordering
holds only on the normal-termination path. -/

/-- C4 counterexample: in `wBad` the completion poll fails with a
scheduler error after the workers were started; the trace contains
`deregisterCall` but no `threadJoin` before it, refuting the claimed
happens-after ordering on this exit path. -/
theorem c4_counterexample :
    ∃ res, runRoot wBad 10 = some res ∧
      Ev.threadStart 0 ∈ res.trace ∧
      Ev.deregisterCall ∈ res.trace ∧
      ¬ cleanupOrdering res.trace :=
  ⟨_, rfl, by decide, by decide, fun h => absurd (h.1 0 (by decide)) (by decide)⟩

/-! ## Claim C8 — exactly one poll after the stop signal (corrected)

After `stop_streaming.wait` returns true, the loop keeps polling with
no further waits until the first empty response (or transport failure):
`stop_on_empty_response` only takes effect on an empty response
(lines 283-289). With data available, more than one further poll runs. -/

/-- C8 counterexample: the stop signal fires during the first wait,
after which the streamer makes three further polls (two data chunks,
then the empty response that stops it) — not exactly one. -/
theorem c8_counterexample :
    ∃ f, streamRun cfgPlain respC8 stopWTrue 10 = some f ∧
      f.waits = 1 ∧ stopWTrue 0 = true ∧
      f.drainPolls = 3 ∧ f.drainPolls ≠ 1 :=
  ⟨_, rfl, rfl, rfl, rfl, by decide⟩

/-! ## Claim C9 — prefix padding direction (corrected)

`f"{task:{width}}"` left-aligns a string, padding it on the right with
spaces; the claim says the name is left-padded (right-aligned). The
prefix also ends with a colon. -/

/-- C9 counterexample: with monitored tasks `["ab", "xyz"]` the prefix
emitted for `"ab"` is `"ab :"` (right-padded, colon-terminated), not
the left-padded `" ab"` (nor `" ab:"`) the claim describes. -/
theorem c9_counterexample :
    maxTaskNameLen true ["ab", "xyz"] = 3 ∧
    linePfxOf "ab" (maxTaskNameLen true ["ab", "xyz"]) = ['a', 'b', ' ', ':'] ∧
    linePfxOf "ab" 3 ≠ specLeftPadPfx "ab" 3 ∧
    linePfxOf "ab" 3 ≠ specLeftPadPfx "ab" 3 ++ [':'] := by
  refine ⟨by decide, by decide, by decide, by decide⟩

/-! ## Claim C3 — deregister exactly once iff dispatch succeeded -/

/-- C3: on every finished run, the number of `deregister_job`
invocations is 1 when dispatch succeeded (every exit path of the `try`
body — normal completion, any fatal error, interruption — reaches the
`finally`), and 0 when validation or dispatch itself failed. -/
theorem c3_deregister_count (w : World) (fuel : Nat) (res : RootResult)
    (h : runRoot w fuel = some res) :
    res.deregs = if dispatchSucceeds w then 1 else 0 := by
  unfold runRoot at h
  split at h
  · rename_i hc
    injection h with h
    subst h
    simp [dispatchSucceeds, payloadOk, hc]
  · rename_i hc
    split at h
    · rename_i m hdisp
      injection h with h
      subst h
      simp [dispatchSucceeds, payloadOk, hc, hdisp]
    · rename_i r hdisp
      split at h
      · exact absurd h (by simp)
      · rename_i outc tr hbody
        injection h with h
        subst h
        simp [dispatchSucceeds, payloadOk, hc, hdisp]

/-- C3 witness: a concrete successful run deregisters exactly once. -/
theorem c3_deregister_count_witness :
    ∃ res, runRoot wGood 10 = some res ∧ res.deregs = 1 :=
  ⟨_, rfl, (c3_deregister_count wGood 10 _ rfl).trans (by decide)⟩

/-! ## Claim C5 — payload size gate -/

/-- C5: a run with a payload whose base64 encoding exceeds 15 * 1024
bytes ends in the validation error with an empty event trace (no
network call, no dispatched instance, no deregistration); any run whose
encoded payload is within the limit proceeds to the dispatch call as
its first event. -/
theorem c5_payload_size_gate (w : World) (fuel : Nat) (res : RootResult)
    (h : runRoot w fuel = some res) :
    (w.inputPresent = true → 15 * 1024 < b64EncLen w.payloadLen →
      res = ⟨.clickError (.validation "encoded payload size exceeds permitted 15KB."), [], 0⟩)
    ∧ (b64EncLen w.payloadLen ≤ 15 * 1024 → res.trace.head? = some .dispatchCall) := by
  unfold runRoot at h
  split at h
  · rename_i hc
    injection h with h
    subst h
    refine ⟨fun _ _ => rfl, fun hle => ?_⟩
    rw [Bool.and_eq_true, decide_eq_true_iff] at hc
    omega
  · rename_i hc
    rw [Bool.and_eq_true] at hc
    constructor
    · intro hip hlt
      exfalso
      rw [hip] at hc
      simp [decide_eq_true_iff] at hc
      omega
    · intro _
      split at h
      · injection h with h
        subst h
        rfl
      · split at h
        · exact absurd h (by simp)
        · injection h with h
          subst h
          rfl

/-- C5 witness: the oversized-payload world (11521 payload bytes,
15364 encoded bytes) stops with an empty trace and no deregistration. -/
theorem c5_payload_size_gate_witness :
    ∃ res, runRoot wBigPayload 5 = some res ∧ res.trace = [] ∧ res.deregs = 0 :=
  ⟨_, rfl, by
    have h := (c5_payload_size_gate wBigPayload 5 _ rfl).1 rfl (by decide)
    rw [h]
    exact ⟨rfl, rfl⟩⟩

/-! ## Claim C10 — the final tail flush runs on the error exit too -/

/-- When the streaming loop exits with a transport error, the last poll
made was the failing one. -/
theorem streamLoop_transportError_last (cfg : StreamCfg) (resp : Nat → PollResp)
    (stopW : Nat → Bool) :
    ∀ (fuel : Nat) (st st2 : StreamSt),
      streamLoop cfg resp stopW fuel st = ⟨st2, some .transportError⟩ →
      resp (st2.polls - 1) = .err := by
  intro fuel
  induction fuel with
  | zero =>
    intro st st2 h
    simp [streamLoop] at h
  | succ f ih =>
    intro st st2 h
    cases hr : resp st.polls with
    | err =>
      simp only [streamLoop, hr] at h
      injection h with h1 h2
      subst h1
      simpa [notePoll] using hr
    | empty =>
      simp only [streamLoop, hr] at h
      split at h
      · simp at h
      · exact ih _ _ h
    | chunk d off =>
      simp only [streamLoop, hr] at h
      split at h
      · exact ih _ _ h
      · exact ih _ _ h

/-- C10: whenever a streamer run ends because of a log-poll transport
failure while the tail buffer is non-empty, the total emitted bytes are
the loop output followed by the flushed tail — prefix, stale fragment,
forced newline — because the flush (lines 291-296) sits after the loop
and runs on this exit path as well; moreover the exit really came from
a failing poll. -/
theorem c10_tail_flush_on_error_exit (cfg : StreamCfg) (resp : Nat → PollResp)
    (stopW : Nat → Bool) (fuel : Nat) (f : StreamFinal)
    (h : streamRun cfg resp stopW fuel = some f)
    (he : f.exited = .transportError) (ht : f.tail ≠ []) :
    f.total = f.loopOut ++ cfg.linePfx ++ f.tail ++ [10] ∧ resp (f.polls - 1) = .err := by
  unfold streamRun at h
  split at h
  · exact absurd h (by simp)
  · rename_i st e heq
    injection h with h
    subst h
    simp only at he ht ⊢
    subst he
    refine ⟨?_, streamLoop_transportError_last cfg resp stopW fuel _ st heq⟩
    rw [if_neg ht]
    simp [List.append_assoc]

/-- C10 witness: chunk `b"a"` (left in the tail) followed by a
transport failure still flushes `b"t:a\n"`. -/
theorem c10_tail_flush_witness :
    ∃ f, streamRun cfgPfx respC10 stopWFalse 5 = some f ∧
      (f.total = f.loopOut ++ cfgPfx.linePfx ++ f.tail ++ [10] ∧
        respC10 (f.polls - 1) = .err) :=
  ⟨_, rfl, c10_tail_flush_on_error_exit cfgPfx respC10 stopWFalse 5 _ rfl rfl (by decide)⟩

/-! ## Claim C8 (amended) — draining polls until the first empty response -/

/-- A truthy (data-carrying) response. -/
def isChunk : PollResp → Bool
  | .chunk _ _ => true
  | _ => false

/-- Processing a chunk only touches `out`, `tail` and `offset`. -/
theorem processChunk_stopOnEmpty (cfg : StreamCfg) (st : StreamSt) (d : List Byte)
    (off : Nat) : (processChunk cfg st d off).stopOnEmpty = st.stopOnEmpty := by
  unfold processChunk
  split <;> rfl

/-- Processing a chunk does not change the poll counter. -/
theorem processChunk_polls (cfg : StreamCfg) (st : StreamSt) (d : List Byte)
    (off : Nat) : (processChunk cfg st d off).polls = st.polls := by
  unfold processChunk
  split <;> rfl

/-- Processing a chunk does not change the wait counter. -/
theorem processChunk_waits (cfg : StreamCfg) (st : StreamSt) (d : List Byte)
    (off : Nat) : (processChunk cfg st d off).waits = st.waits := by
  unfold processChunk
  split <;> rfl

/-- C8 (amended): once `stop_on_empty_response` is set, the streamer
polls with **no further waits** until the first response that carries
no data (empty or transport failure): if the next `k` responses are
data chunks and response `k` is the first non-chunk, exactly `k + 1`
further polls happen and then the loop stops. (In particular at least
one further poll is attempted, but — contrary to the claim — as many
as the server keeps answering with data.) -/
theorem c8_drain_polls_until_first_empty (cfg : StreamCfg) (resp : Nat → PollResp)
    (stopW : Nat → Bool) :
    ∀ (k fuel : Nat) (st : StreamSt), st.stopOnEmpty = true →
      (∀ j, j < k → isChunk (resp (st.polls + j)) = true) →
      isChunk (resp (st.polls + k)) = false →
      k < fuel →
      ∃ st2 e, streamLoop cfg resp stopW fuel st = ⟨st2, some e⟩ ∧
        st2.polls = st.polls + k + 1 ∧ st2.waits = st.waits := by
  intro k
  induction k with
  | zero =>
    intro fuel st hstop hch hnc hfuel
    obtain ⟨f, rfl⟩ : ∃ f, fuel = f + 1 := ⟨fuel - 1, by omega⟩
    rw [Nat.add_zero] at hnc
    cases hr : resp st.polls with
    | chunk d off => rw [hr] at hnc; simp [isChunk] at hnc
    | err =>
      refine ⟨notePoll st, .transportError, ?_, by simp [notePoll], rfl⟩
      simp only [streamLoop, hr]
    | empty =>
      refine ⟨notePoll st, .emptyDrain, ?_, by simp [notePoll], rfl⟩
      have hs1 : (notePoll st).stopOnEmpty = true := hstop
      simp only [streamLoop, hr, hs1, if_true]
  | succ k ih =>
    intro fuel st hstop hch hnc hfuel
    obtain ⟨f, rfl⟩ : ∃ f, fuel = f + 1 := ⟨fuel - 1, by omega⟩
    have h0 : isChunk (resp (st.polls + 0)) = true := hch 0 (Nat.succ_pos k)
    rw [Nat.add_zero] at h0
    cases hr : resp st.polls with
    | err => rw [hr] at h0; simp [isChunk] at h0
    | empty => rw [hr] at h0; simp [isChunk] at h0
    | chunk d off =>
      have hstop1 : (processChunk cfg (notePoll st) d off).stopOnEmpty = true := by
        rw [processChunk_stopOnEmpty]
        exact hstop
      have hpolls1 : (processChunk cfg (notePoll st) d off).polls = st.polls + 1 := by
        rw [processChunk_polls]
        rfl
      have hwaits1 : (processChunk cfg (notePoll st) d off).waits = st.waits := by
        rw [processChunk_waits]
        rfl
      obtain ⟨st2, e, hrun, hp, hw⟩ := ih f (processChunk cfg (notePoll st) d off) hstop1
        (fun j hj => by
          rw [hpolls1, show st.polls + 1 + j = st.polls + (j + 1) from by omega]
          exact hch (j + 1) (by omega))
        (by
          rw [hpolls1, show st.polls + 1 + k = st.polls + (k + 1) from by omega]
          exact hnc)
        (by omega)
      refine ⟨st2, e, ?_, by rw [hpolls1] at hp; omega, by rw [hw, hwaits1]⟩
      simp only [streamLoop, hr, hstop1, if_true]
      exact hrun

/-- A state already in draining mode. -/
def drainSt : StreamSt := ⟨0, [], [], true, 0, 0, 0⟩

/-- One data chunk and then nothing. -/
def respW8 : Nat → PollResp
  | 0 => .chunk [119] 1
  | _ => .empty

/-- C8 witness: from a draining state, with one chunk followed by an
empty response, the loop makes exactly two further polls and stops
without waiting again. -/
theorem c8_drain_polls_witness :
    ∃ st2 e, streamLoop cfgPlain respW8 stopWTrue 5 drainSt = ⟨st2, some e⟩ ∧
      st2.polls = drainSt.polls + 1 + 1 ∧ st2.waits = drainSt.waits :=
  c8_drain_polls_until_first_empty cfgPlain respW8 stopWTrue 1 5 drainSt rfl
    (fun j hj => by
      have hj0 : j = 0 := by omega
      subst hj0
      decide)
    (by decide) (by decide)

/-! ## Claim C9 (amended) — the prefix is the task name left-aligned -/

/-- The seed of a `foldl max` is a lower bound of the result. -/
theorem le_foldl_max_init (l : List Nat) : ∀ a : Nat, a ≤ l.foldl max a := by
  induction l with
  | nil => intro a; exact le_refl a
  | cons b l ih => intro a; exact le_trans (le_max_left a b) (ih (max a b))

/-- Every element of a list is at most its `foldl max`. -/
theorem le_foldl_max (l : List Nat) : ∀ (a x : Nat), x ∈ l → x ≤ l.foldl max a := by
  induction l with
  | nil => intro a x hx; cases hx
  | cons b l ih =>
    intro a x hx
    cases hx with
    | head => exact le_trans (le_max_right a b) (le_foldl_max_init l (max a b))
    | tail _ hx => exact ih (max a b) x hx

/-- C9 (amended): when prefixing is in effect, the prefix emitted for a
monitored task is the task name **left-aligned** — padded on the right
with spaces — to the longest monitored task-name length, followed by a
colon (not left-padded/right-aligned as the claim states). -/
theorem c9_pfx_left_aligned (tasks : List String) (task : String)
    (hm : task ∈ tasks) (h0 : maxTaskNameLen true tasks ≠ 0) :
    linePfxOf task (maxTaskNameLen true tasks) =
      task.data ++ List.replicate (maxTaskNameLen true tasks - task.length) ' ' ++ [':'] := by
  have hle : task.length ≤ maxTaskNameLen true tasks := by
    have hmem : task.length ∈ tasks.map String.length := List.mem_map_of_mem _ hm
    simpa [maxTaskNameLen] using le_foldl_max (tasks.map String.length) 0 task.length hmem
  have hdata : task.data.length = task.length := rfl
  unfold linePfxOf pyFormatPad
  rw [if_pos h0]
  by_cases hcase : maxTaskNameLen true tasks ≤ task.data.length
  · have hz : maxTaskNameLen true tasks - task.length = 0 := by omega
    rw [if_pos hcase, hz]
    simp
  · rw [if_neg hcase, hdata]

/-- C9 witness: for monitored tasks `["ab", "xyz"]`, the prefix for
`"ab"` is the name right-padded with one space, then the colon. -/
theorem c9_pfx_left_aligned_witness :
    linePfxOf "ab" (maxTaskNameLen true ["ab", "xyz"]) =
      "ab".data ++ List.replicate (maxTaskNameLen true ["ab", "xyz"] - "ab".length) ' '
        ++ [':'] :=
  c9_pfx_left_aligned ["ab", "xyz"] "ab" (by decide) (by decide)

/-! ## Claim C4 (amended) — cleanup ordering on the normal path -/

/-- List `takeWhile` passes over a block whose elements all satisfy the
predicate. -/
theorem takeWhile_append_of_all {α : Type} (p : α → Bool) (l r : List α)
    (h : ∀ e ∈ l, p e = true) :
    (l ++ r).takeWhile p = l ++ r.takeWhile p := by
  induction l with
  | nil => simp
  | cons a l ih =>
    have ha : p a = true := h a (List.mem_cons_self a l)
    simp [List.takeWhile_cons, ha, ih fun e he => h e (List.mem_cons_of_mem a he)]

/-- The trace `root` produces on the normal-termination path, for
`n` workers and `polls` completion polls. -/
def terminalTrace (n polls : Nat) : List Ev :=
  Ev.dispatchCall ::
    (startEvs n ++ statusEvs polls ++ [Ev.statusDetermined, Ev.stopSet] ++ joinEvs n)
    ++ [Ev.deregisterCall]

/-- Everything before the deregister event on the normal path. -/
theorem beforeFirstDereg_terminalTrace (n polls : Nat) :
    beforeFirstDereg (terminalTrace n polls) =
      Ev.dispatchCall ::
        (startEvs n ++ statusEvs polls ++ [Ev.statusDetermined, Ev.stopSet] ++ joinEvs n) := by
  unfold beforeFirstDereg terminalTrace
  rw [← List.cons_append, takeWhile_append_of_all]
  · simp [List.takeWhile_cons]
  · intro e he
    rw [decide_eq_true_iff]
    intro heq
    subst heq
    simp [startEvs, statusEvs, joinEvs, List.mem_cons, List.mem_append, List.mem_map] at he

/-- The normal-termination trace satisfies the cleanup ordering. -/
theorem cleanupOrdering_terminalTrace (n polls : Nat) :
    cleanupOrdering (terminalTrace n polls) := by
  constructor
  · intro i hi
    rw [beforeFirstDereg_terminalTrace]
    have hin : i < n := by
      simp [terminalTrace, startEvs, statusEvs, joinEvs, List.mem_cons, List.mem_append,
        List.mem_map, List.mem_range] at hi
      exact hi
    simp [startEvs, statusEvs, joinEvs, List.mem_cons, List.mem_append, List.mem_map,
      List.mem_range]
    exact hin
  · left
    rw [beforeFirstDereg_terminalTrace]
    simp [List.mem_cons, List.mem_append]

/-- C4 (amended): on every run in which the completion wait determined
a terminal status, cleanup happens after the status determination,
after the stop broadcast, and after every started worker was joined.
(The counterexample shows this fails on the completion-poll-failure
path, where the workers are neither stopped nor joined before the
`finally` deregisters.) -/
theorem c4_cleanup_after_joins_on_terminal (w : World) (fuel : Nat) (res : RootResult)
    (h : runRoot w fuel = some res) (s : String) (hs : res.outcome = .completed s) :
    cleanupOrdering res.trace := by
  unfold runRoot at h
  split at h
  · injection h with h
    subst h
    simp at hs
  · split at h
    · injection h with h
      subst h
      simp at hs
    · split at h
      · exact absurd h (by simp)
      · rename_i outc tr hbody
        injection h with h
        subst h
        simp only at hs ⊢
        unfold runBody at hbody
        split at hbody
        · exact absurd hbody (by simp)
        · injection hbody with hbody
          injection hbody with h1 h2
          subst h1
          simp at hs
        · split at hbody
          · injection hbody with hbody
            injection hbody with h1 h2
            subst h1
            simp at hs
          · split at hbody
            · exact absurd hbody (by simp)
            · injection hbody with hbody
              injection hbody with h1 h2
              subst h1
              simp at hs
            · injection hbody with hbody
              injection hbody with h1 h2
              subst h1
              simp at hs
            · injection hbody with hbody
              injection hbody with h1 h2
              subst h2
              exact cleanupOrdering_terminalTrace _ _

/-- C4 witness: the normally-completing run `wGood` satisfies the
cleanup ordering. -/
theorem c4_cleanup_after_joins_witness :
    ∃ res, runRoot wGood 10 = some res ∧ cleanupOrdering res.trace :=
  ⟨_, rfl, c4_cleanup_after_joins_on_terminal wGood 10 _ rfl "complete" rfl⟩

/-! ## Claim C6 — the allocation wait succeeds only on one populated allocation -/

/-- Whenever the polling loop returns a list, the stop condition held:
the list came from a query, is non-empty, and every allocation in it
has a non-empty task-state map. -/
theorem wait_ok_ready (query : Nat → AllocQuery) (qdur : Nat → Int)
    (deadline step : Int) :
    ∀ (fuel : Nat) (now : Int) (k : Nat) (l : List Alloc) (tr : List (Int × Int)),
      wait_for_alloc query qdur deadline step fuel now k = some (.ok l, tr) →
      allocsReady l = true ∧ ∃ j, query j = .ok l := by
  intro fuel
  induction fuel with
  | zero => intro now k l tr h; simp [wait_for_alloc] at h
  | succ f ih =>
    intro now k l tr h
    simp only [wait_for_alloc] at h
    split at h
    · simp at h
    · split at h
      · simp at h
      · rename_i allocs hq
        split at h
        · rename_i hready
          injection h with h
          injection h with h1 h2
          injection h1 with h1
          subst h1
          exact ⟨hready, k, hq⟩
        · split at h
          · exact absurd h (by simp)
          · rename_i res tr' hrec
            injection h with h
            injection h with h1 h2
            subst h1
            exact ih _ _ _ _ hrec

/-- The single-allocation check succeeds exactly on singleton lists. -/
theorem checkSingle_ok (allocs : List Alloc) (a : Alloc)
    (h : checkSingle allocs = .ok a) : allocs = [a] := by
  match allocs, h with
  | [], h => simp [checkSingle] at h
  | [x], h =>
    have hx : checkSingle [x] = .ok x := rfl
    rw [hx] at h
    injection h with h
    rw [h]
  | x :: y :: rest, h =>
    have hlen : (x :: y :: rest).length ≠ 1 := by
      simp only [List.length_cons]
      omega
    rw [checkSingle, if_pos hlen] at h
    simp at h

/-- C6: (1) whenever `root`'s allocation phase succeeds with an
allocation `a`, that allocation has a non-empty task-state map and the
loop returned exactly `[a]`, which some query produced (non-empty, all
task states populated); (2) if the loop returned a list of any length
other than one, the phase fails with the unexpected-allocation-count
error. -/
theorem c6_success_single_populated (query : Nat → AllocQuery) (qdur : Nat → Int)
    (deadline step : Int) (fuel : Nat) :
    (∀ a, waitAndCheck query qdur deadline step fuel = some (.ok a) →
      a.taskStates ≠ [] ∧ ∃ j, query j = .ok [a])
    ∧ (∀ l tr, wait_for_alloc query qdur deadline step fuel 0 0 = some (.ok l, tr) →
      l.length ≠ 1 →
      waitAndCheck query qdur deadline step fuel =
        some (.error (.unexpectedAllocCount l.length))) := by
  constructor
  · intro a h
    unfold waitAndCheck at h
    split at h
    · exact absurd h (by simp)
    · simp at h
    · simp at h
    · rename_i allocs tr hwait
      injection h with h
      have hsingle : allocs = [a] := checkSingle_ok allocs a h
      subst hsingle
      obtain ⟨hready, j, hq⟩ := wait_ok_ready query qdur deadline step fuel 0 0 [a] tr hwait
      refine ⟨?_, j, hq⟩
      intro hnil
      simp [allocsReady, hnil] at hready
  · intro l tr hwait hlen
    unfold waitAndCheck
    rw [hwait]
    dsimp only
    rw [checkSingle.eq_def, if_pos hlen]

/-- A query schedule that immediately returns one populated allocation. -/
def queryC6 : Nat → AllocQuery := fun _ => .ok [allocA]

/-- C6 witness: with `queryC6` the allocation phase succeeds and the
theorem yields the populated singleton. -/
theorem c6_success_single_populated_witness :
    allocA.taskStates ≠ [] ∧ ∃ j, queryC6 j = AllocQuery.ok [allocA] :=
  (c6_success_single_populated queryC6 (fun _ => 1) 15 2 10).1 allocA rfl

/-! ## Claim C7 — deadline policy of the allocation wait -/

/-- Each recorded sleep is `min(remaining, step)` with `remaining`
measured when the loop head computed it; no sleep extends past the
deadline. -/
theorem wait_sleeps (query : Nat → AllocQuery) (qdur : Nat → Int) (deadline step : Int) :
    ∀ (fuel : Nat) (now : Int) (k : Nat) (r : Except WaitErr (List Alloc))
      (tr : List (Int × Int)),
      wait_for_alloc query qdur deadline step fuel now k = some (r, tr) →
      ∀ p ∈ tr, p.2 = min (deadline - p.1) step ∧ p.1 + p.2 ≤ deadline := by
  intro fuel
  induction fuel with
  | zero => intro now k r tr h; simp [wait_for_alloc] at h
  | succ f ih =>
    intro now k r tr h
    simp only [wait_for_alloc] at h
    split at h
    · injection h with h
      injection h with h1 h2
      subst h2
      intro p hp
      cases hp
    · split at h
      · injection h with h
        injection h with h1 h2
        subst h2
        intro p hp
        cases hp
      · split at h
        · injection h with h
          injection h with h1 h2
          subst h2
          intro p hp
          cases hp
        · split at h
          · exact absurd h (by simp)
          · rename_i res tr' hrec
            injection h with h
            injection h with h1 h2
            subst h2
            intro p hp
            cases hp with
            | head =>
              refine ⟨rfl, ?_⟩
              have hmin := min_le_left (deadline - now) step
              omega
            | tail _ hp => exact ih _ _ _ _ hrec p hp

/-- With a positive query duration and a non-negative poll interval,
the loop finishes — by success, query error or timeout — within
`timeout + 2` iterations. -/
theorem wait_terminates (query : Nat → AllocQuery) (qdur : Nat → Int)
    (deadline step : Int) (hq : ∀ j, 1 ≤ qdur j) (hstep : 0 ≤ step) :
    ∀ (fuel : Nat) (now : Int) (k : Nat),
      (deadline - now).toNat + 2 ≤ fuel →
      (wait_for_alloc query qdur deadline step fuel now k).isSome = true := by
  intro fuel
  induction fuel with
  | zero => intro now k h; exact absurd h (by omega)
  | succ f ih =>
    intro now k h
    simp only [wait_for_alloc]
    split
    · rfl
    · rename_i hrem
      split
      · rfl
      · rename_i allocs hqk
        split
        · rfl
        · have hrem2 : 0 ≤ deadline - now := by omega
          have hslp : 0 ≤ min (deadline - now) step := le_min hrem2 hstep
          have hq1 : 1 ≤ qdur k := hq k
          by_cases hz : deadline - now = 0
          · have hf : 1 ≤ f := by omega
            obtain ⟨f2, rfl⟩ : ∃ f2, f = f2 + 1 := ⟨f - 1, by omega⟩
            have hlt : deadline - (now + qdur k + min (deadline - now) step) < 0 := by
              have hmin := min_le_left (deadline - now) step
              omega
            have hto : wait_for_alloc query qdur deadline step (f2 + 1)
                (now + qdur k + min (deadline - now) step) (k + 1) =
                some (.error .timeout, []) := by
              simp only [wait_for_alloc, if_pos hlt]
            rw [hto]
            rfl
          · have hbound : (deadline - (now + qdur k + min (deadline - now) step)).toNat + 2 ≤ f := by
              have hmin := min_le_left (deadline - now) step
              omega
            have hrec := ih (now + qdur k + min (deadline - now) step) (k + 1) hbound
            cases hw : wait_for_alloc query qdur deadline step f
                (now + qdur k + min (deadline - now) step) (k + 1) with
            | none => simp [hw] at hrec
            | some p =>
              cases p
              rfl

/-- C7: (1) the loop fails with the allocation-timeout error as soon as
the loop head finds the deadline elapsed; (2) every sleep lasts
`min(remaining, pollInterval)` for the `remaining` computed at that
loop head, so no sleep extends past the deadline; (3) with positive
query durations and a non-negative interval, the loop terminates within
fuel proportional to the timeout. -/
theorem c7_deadline_policy (query : Nat → AllocQuery) (qdur : Nat → Int)
    (deadline step : Int) (fuel : Nat) (now : Int) (k : Nat) :
    (deadline - now < 0 →
      wait_for_alloc query qdur deadline step (fuel + 1) now k =
        some (.error .timeout, []))
    ∧ (∀ (r : Except WaitErr (List Alloc)) (tr : List (Int × Int)),
        wait_for_alloc query qdur deadline step fuel now k = some (r, tr) →
        ∀ p ∈ tr, p.2 = min (deadline - p.1) step ∧ p.1 + p.2 ≤ deadline)
    ∧ ((∀ j, 1 ≤ qdur j) → 0 ≤ step → (deadline - now).toNat + 2 ≤ fuel →
        (wait_for_alloc query qdur deadline step fuel now k).isSome = true) := by
  refine ⟨fun hlt => ?_, wait_sleeps query qdur deadline step fuel now k,
    fun hq hstep hfuel => wait_terminates query qdur deadline step hq hstep fuel now k hfuel⟩
  simp only [wait_for_alloc, if_pos hlt]

/-- C7 witness: an already-elapsed deadline times out at once, and a
never-ready schedule with deadline 3 and step 2 finishes within fuel
10. -/
theorem c7_deadline_policy_witness :
    wait_for_alloc (fun _ => AllocQuery.ok []) (fun _ => 1) (-1) 2 1 0 0 =
      some (.error .timeout, [])
    ∧ (wait_for_alloc (fun _ => AllocQuery.ok []) (fun _ => 1) 3 2 10 0 0).isSome = true :=
  ⟨(c7_deadline_policy (fun _ => AllocQuery.ok []) (fun _ => 1) (-1) 2 0 0 0).1 (by decide),
   (c7_deadline_policy (fun _ => AllocQuery.ok []) (fun _ => 1) 3 2 10 0 0).2.2
     (fun _ => le_refl 1) (by decide) (by decide)⟩

end NSJD
